import Mathlib

/-!
Verification of the change-detection core of the cookies-sync extension.

The definitions below are a shallow embedding of `src/utils/api-monitor.js`
and `src/utils/config.js`.  JavaScript objects used as string-to-string maps
are modelled as association lists (`JsObj`); JavaScript numbers appearing in
the percentage computation are modelled as exact rationals (`ℚ`); the
`chrome.cookies.getAll` collaborator, which can throw, is modelled as a
function into `Except`; `setTimeout`/`clearTimeout` are modelled as an
explicit timer world acted on by signal and clock-tick events.
-/

/-- A JavaScript object used as a map from string keys to string values:
an association list, first occurrence of a key wins on lookup.  Real JS
objects never hold a key twice; theorems that need that fact carry a
`Nodup` hypothesis on the key list. -/
abbrev JsObj := List (String × String)

/-- Property access `o[k]`: `some v` when the key is present, `none`
standing for JavaScript's `undefined`. -/
def lookupObj : JsObj → String → Option String
  | [], _ => none
  | e :: es, k => if e.1 = k then some e.2 else lookupObj es k

/-- The `key in obj` test. -/
def hasKeyObj (o : JsObj) (k : String) : Bool :=
  o.any (fun e => e.1 = k)

/-- `Object.keys(o)`. -/
def keysObj (o : JsObj) : List String :=
  o.map Prod.fst

/-- Assignment `o[k] = v`: an existing key keeps its position and gets the
new value, a fresh key is appended. -/
def setKey (o : JsObj) (k v : String) : JsObj :=
  if hasKeyObj o k then o.map (fun e => if e.1 = k then (k, v) else e)
  else o ++ [(k, v)]

/-- The object spread `\x7b...a, ...b\x7d`: the keys of `a` in their order with
`b`'s value where `b` also has the key, followed by the entries of `b`
whose keys are not in `a`. -/
def spread (a b : JsObj) : JsObj :=
  a.map (fun e => (e.1, (lookupObj b e.1).getD e.2))
    ++ b.filter (fun e => ! hasKeyObj a e.1)

/-- The `\x7bcookies, headers\x7d` pair produced by the extractor, merged into the
per-domain snapshot (the stored `timestamp` field plays no part in any
claim and is not modelled). -/
structure RequestData where
  cookies : JsObj
  headers : JsObj
deriving DecidableEq

/-- Result record of `calculateHeaderChangePercentage` in api-monitor.js. -/
structure HeaderStats where
  changedCount : Nat
  totalCommonKeys : Nat
  percentage : ℚ
deriving DecidableEq

/-- Verdict record of `compareAndDetectChanges` in api-monitor.js (the
human-readable `details` string and the optional count fields are not
modelled; no claim mentions them). -/
structure ChangeVerdict where
  shouldSync : Bool
  cookiesChanged : Bool
  headersChanged : Bool
  headerChangePercentage : ℚ
deriving DecidableEq

/-- Embeds `hasChanges` of api-monitor.js on its object (non-null) path:
both call sites inside `compareAndDetectChanges` pass actual objects, so
the two null guards at its top are never taken there.  `obj2[key]` for an
absent key is `undefined`, which differs from every string value, hence
the `Option` comparison. -/
def hasChanges (obj1 obj2 : JsObj) : Bool :=
  if (keysObj obj1).length ≠ (keysObj obj2).length then true
  else if obj1.any (fun e => lookupObj obj2 e.1 ≠ some e.2) then true
  else obj2.any (fun e => ! hasKeyObj obj1 e.1)

/-- Common header names: the source builds `new Set` of both key lists and
filters it to keys present in both objects.  `Object.keys` never repeats a
key, so the deduplicated filtered list is exactly the keys of `newHeaders`
that also occur in `oldHeaders`, in `newHeaders` order. -/
def commonHeaderKeys (newHeaders oldHeaders : JsObj) : List String :=
  (keysObj newHeaders).filter (fun k => hasKeyObj oldHeaders k)

/-- Size of `new Set([...Object.keys(newHeaders), ...Object.keys(oldHeaders)])`:
the keys of `newHeaders` followed by those keys of `oldHeaders` not already
in `newHeaders` (again using that `Object.keys` never repeats a key). -/
def unionKeyCount (newHeaders oldHeaders : JsObj) : Nat :=
  (keysObj newHeaders ++ (keysObj oldHeaders).filter (fun k => ! hasKeyObj newHeaders k)).length

/-- JavaScript's `Math.round`: round half toward positive infinity. -/
def jsRound (q : ℚ) : ℤ := ⌊q + 1/2⌋

/-- The source's `Math.round(percentage * 100) / 100`: round to 2 decimal
places. -/
def jsRound2 (q : ℚ) : ℚ := (jsRound (q * 100) : ℚ) / 100

/-- Embeds `calculateHeaderChangePercentage` of api-monitor.js (the null
guard on `oldHeaders` is subsumed by the empty-object test: the only call
site passes an object). -/
def calculateHeaderChangePercentage (newHeaders oldHeaders : JsObj) : HeaderStats :=
  if (keysObj oldHeaders).length = 0 then
    { changedCount := (keysObj newHeaders).length
      totalCommonKeys := (keysObj newHeaders).length
      percentage := 100 }
  else
    let commonKeys := commonHeaderKeys newHeaders oldHeaders
    if commonKeys.length = 0 then
      { changedCount := unionKeyCount newHeaders oldHeaders
        totalCommonKeys := 0
        percentage := 100 }
    else
      let changedCount :=
        commonKeys.countP (fun k => lookupObj newHeaders k ≠ lookupObj oldHeaders k)
      { changedCount := changedCount
        totalCommonKeys := commonKeys.length
        percentage := jsRound2 ((changedCount : ℚ) / (commonKeys.length : ℚ) * 100) }

/-- The fixed `MIN_HEADER_CHANGE_PERCENTAGE` threshold. -/
def MIN_HEADER_CHANGE_PERCENTAGE : ℚ := 20

/-- Embeds `compareAndDetectChanges` of api-monitor.js. -/
def compareAndDetectChanges (newData : RequestData) (storedData : Option RequestData) :
    ChangeVerdict :=
  match storedData with
  | none =>
      { shouldSync := true, cookiesChanged := true, headersChanged := true
        headerChangePercentage := 100 }
  | some stored =>
      let cookiesChanged := hasChanges newData.cookies stored.cookies
      let headersChanged := hasChanges newData.headers stored.headers
      if cookiesChanged then
        { shouldSync := true, cookiesChanged := true, headersChanged := headersChanged
          headerChangePercentage := if headersChanged then 100 else 0 }
      else if headersChanged then
        let headerStats := calculateHeaderChangePercentage newData.headers stored.headers
        { shouldSync := MIN_HEADER_CHANGE_PERCENTAGE ≤ headerStats.percentage
          cookiesChanged := false, headersChanged := true
          headerChangePercentage := headerStats.percentage }
      else
        { shouldSync := false, cookiesChanged := false, headersChanged := false
          headerChangePercentage := 0 }

/-- Embeds `mergeRequestData` of api-monitor.js. -/
def mergeRequestData (currentData : Option RequestData) (newData : RequestData) :
    RequestData :=
  match currentData with
  | none => { cookies := newData.cookies, headers := newData.headers }
  | some current =>
      { cookies := spread current.cookies newData.cookies
        headers := spread current.headers newData.headers }

/-- The `replace(/^\./, "")` used by `matchesDomain`: strip one leading dot. -/
def dropLeadingDot (s : String) : String :=
  if s.data.head? = some '.' then String.mk (s.data.drop 1) else s

/-- JavaScript's `String.prototype.endsWith`. -/
def jsEndsWith (s suffix : String) : Bool :=
  suffix.data.isSuffixOf s.data

/-- Embeds `matchesDomain` of api-monitor.js; the `!requestDomain` and
`!configDomain` guards are the empty-string tests for string inputs. -/
def matchesDomain (requestDomain configDomain : String) : Bool :=
  if requestDomain = "" ∨ configDomain = "" then false
  else if requestDomain = configDomain then true
  else
    let cleanConfigDomain := dropLeadingDot configDomain
    if jsEndsWith requestDomain ("." ++ cleanConfigDomain) then true
    else
      let cleanRequestDomain := dropLeadingDot requestDomain
      jsEndsWith cleanConfigDomain ("." ++ cleanRequestDomain)

/-- Anchored wildcard matching: the meaning of the regex `pathToRegex` in
config.js compiles a pattern to.  `pathToRegex` escapes every regex
metacharacter of the pattern except `*`, turns each `*` into `.*` and
anchors the whole with `^...$`, so the compiled regex matches exactly the
strings made of the pattern's literal characters with each `*` standing
for zero or more arbitrary characters, spanning the entire string. -/
def globMatch : List Char → List Char → Bool
  | [], cs => cs.isEmpty
  | p :: ps, cs =>
    if p = '*' then cs.tails.any (fun suf => globMatch ps suf)
    else
      match cs with
      | [] => false
      | c :: cs2 => p = c && globMatch ps cs2

/-- Embeds `matchesApiPath` of config.js: false on an empty pattern list,
otherwise true when some pattern's compiled regex matches the path. -/
def matchesApiPath (urlPath : String) (apiPaths : List String) : Bool :=
  if apiPaths.isEmpty then false
  else apiPaths.any (fun path => globMatch path.data urlPath.data)

/-- JavaScript's `split` on a one-character separator. -/
def splitOnChar (sep : Char) (s : String) : List String :=
  (s.data.splitOn sep).map String.mk

/-- JavaScript's `String.prototype.trim`: strip whitespace at both ends. -/
def jsTrim (s : String) : String :=
  String.mk (((s.data.dropWhile Char.isWhitespace).reverse.dropWhile Char.isWhitespace).reverse)

/-- JavaScript's `String.prototype.toLowerCase` (header names are ASCII). -/
def jsToLower (s : String) : String :=
  String.mk (s.data.map Char.toLower)

/-- Embeds `parseCookieHeader` of api-monitor.js: split the header on `;`,
split each fragment on `=` after trimming, keep fragments with at least
one `=` and a non-empty trimmed name, the value being everything after the
first `=` rejoined and trimmed. -/
def parseCookieHeader (cookieHeader : String) : JsObj :=
  if cookieHeader = "" then []
  else
    (splitOnChar ';' cookieHeader).foldl
      (fun cookies cookie =>
        let parts := splitOnChar '=' (jsTrim cookie)
        if 2 ≤ parts.length then
          let name := jsTrim (parts.headD "")
          let value := jsTrim (String.intercalate "=" (parts.drop 1))
          if name ≠ "" then setKey cookies name value else cookies
        else cookies)
      []

/-- Embeds `extractHeaders` of api-monitor.js: fold the raw header list
into an object keyed by lower-cased names, last occurrence winning; an
entry with a falsy (empty) name is skipped (the input type already rules
out the null-list and undefined-value guards). -/
def extractHeaders (requestHeaders : List (String × String)) : JsObj :=
  requestHeaders.foldl
    (fun headers h => if h.1 ≠ "" then setKey headers (jsToLower h.1) h.2 else headers)
    []

/-- Embeds `getCookiesForUrl` of api-monitor.js.  The
`chrome.cookies.getAll` collaborator can throw, modelled by an `Except`
result whose records are the name and value fields (the only ones read);
the catch branch logs and returns the empty object. -/
def getCookiesForUrl (chromeCookiesGetAll : String → Except String (List (String × String)))
    (url : String) : JsObj :=
  match chromeCookiesGetAll url with
  | Except.ok cookies => cookies.foldl (fun acc c => setKey acc c.1 c.2) []
  | Except.error _ => []

/-- Embeds `extractRequestData` of api-monitor.js: lower-cased header map,
cookies from the `Cookie` header when its parse is non-empty, otherwise
from the cookie-lookup collaborator; the `cookie` key is removed from the
returned header map. -/
def extractRequestData (chromeCookiesGetAll : String → Except String (List (String × String)))
    (url : String) (requestHeaders : List (String × String)) : RequestData :=
  let headers := extractHeaders requestHeaders
  let cookieHeader := (lookupObj headers "cookie").getD ""
  let parsed := parseCookieHeader cookieHeader
  let cookies :=
    if (keysObj parsed).length = 0 then getCookiesForUrl chromeCookiesGetAll url else parsed
  { cookies := cookies
    headers := headers.filter (fun e => e.1 ≠ "cookie") }

/-- The debounce quiet window: `SYNC_DEBOUNCE_MS = 2000` milliseconds, two
one-second time units. -/
def SYNC_DEBOUNCE_UNITS : Nat := 2

/-- State of the cooperative timer runtime around `triggerSync` of
api-monitor.js: the scheduled timers (id paired with remaining whole time
units), the next fresh timer id, the module-level `syncDebounceTimer`
handle, and how many times the scheduled callback has run (the callback
invokes `syncTriggerCallback`, modelled as installed). -/
structure TimerWorld where
  timers : List (Nat × Nat)
  nextId : Nat
  debounceHandle : Option Nat
  fires : Nat
deriving DecidableEq

/-- Embeds `triggerSync` of api-monitor.js: `clearTimeout` on the stored
handle (a no-op when that timer already fired), then `setTimeout` of a
fresh timer for the full quiet window, storing its handle. -/
def triggerSync (w : TimerWorld) : TimerWorld :=
  let cleared :=
    match w.debounceHandle with
    | some id => w.timers.filter (fun t => t.1 ≠ id)
    | none => w.timers
  { timers := cleared ++ [(w.nextId, SYNC_DEBOUNCE_UNITS)]
    nextId := w.nextId + 1
    debounceHandle := some w.nextId
    fires := w.fires }

/-- One time unit passes: every scheduled timer's remaining time drops by
one; timers that reach zero fire their callback and are removed. -/
def tickWorld (w : TimerWorld) : TimerWorld :=
  let dec := w.timers.map (fun t => (t.1, t.2 - 1))
  { timers := dec.filter (fun t => t.2 ≠ 0)
    nextId := w.nextId
    debounceHandle := w.debounceHandle
    fires := w.fires + dec.countP (fun t => t.2 = 0) }

/-- An event of the cooperative schedule: a call to `triggerSync` (a
"should sync" signal), or the passage of one time unit. -/
inductive SchedulerEvent
  | signal
  | tick
deriving DecidableEq

/-- Apply one event to the timer world. -/
def stepEvent (w : TimerWorld) : SchedulerEvent → TimerWorld
  | SchedulerEvent.signal => triggerSync w
  | SchedulerEvent.tick => tickWorld w

/-- Run a sequence of events. -/
def runEvents (w : TimerWorld) (es : List SchedulerEvent) : TimerWorld :=
  es.foldl stepEvent w

/-- The initial world: nothing scheduled, no signal ever sent. -/
def idleWorld : TimerWorld :=
  { timers := [], nextId := 0, debounceHandle := none, fires := 0 }

/-- A burst of `gaps.length + 1` signals: each listed gap is the number of
time units elapsing before the next signal. -/
def burstEvents (gaps : List Nat) : List SchedulerEvent :=
  SchedulerEvent.signal ::
    gaps.flatMap (fun g => List.replicate g SchedulerEvent.tick ++ [SchedulerEvent.signal])

/-- Modelled from the spec: the claimed batch "B∪C in which B wins ties" —
a left-biased union keeping all of `b` and only the entries of `c` whose
keys `b` lacks.  Stated only to compare the spec's wording of the merge
batching law against `mergeRequestData`. -/
def specLeftBiasedUnion (b c : JsObj) : JsObj :=
  b ++ c.filter (fun e => ! hasKeyObj b e.1)

/-- The debounce world state in which exactly one timer is pending with
`r` time units remaining and the stored handle names it. -/
def ArmedWorld (w : TimerWorld) (r : Nat) : Prop :=
  ∃ i, w.timers = [(i, r)] ∧ w.debounceHandle = some i

/-- Invariant of the debounce scheduler: no more than one pending timer
ever exists, and a pending timer is always the one the stored handle
names. -/
def TimerInv (w : TimerWorld) : Prop :=
  w.timers.length ≤ 1 ∧ ∀ t ∈ w.timers, w.debounceHandle = some t.1

/-! ### Association-list lemmas -/

theorem hasKeyObj_eq_isSome (o : JsObj) (k : String) :
    hasKeyObj o k = (lookupObj o k).isSome := by
  induction o with
  | nil => rfl
  | cons e es ih =>
    by_cases h : e.1 = k
    · simp [hasKeyObj, lookupObj, h, List.any_cons]
    · simp only [hasKeyObj, lookupObj, List.any_cons, h, if_neg, not_false_iff,
        decide_eq_true_eq, Bool.false_or]
      simpa [hasKeyObj] using ih

theorem mem_of_lookupObj_eq_some {o : JsObj} {k v : String}
    (h : lookupObj o k = some v) : (k, v) ∈ o := by
  induction o with
  | nil => simp [lookupObj] at h
  | cons e es ih =>
    obtain ⟨n, w⟩ := e
    by_cases he : n = k
    · subst he
      simp only [lookupObj, if_pos] at h
      cases h
      exact List.mem_cons_self _ _
    · simp only [lookupObj, he, if_neg, not_false_iff] at h
      exact List.mem_cons_of_mem _ (ih h)

theorem mem_keysObj {o : JsObj} {k : String} :
    k ∈ keysObj o ↔ hasKeyObj o k = true := by
  simp [keysObj, hasKeyObj, List.any_eq_true, List.mem_map]

theorem lookupObj_of_mem_nodup {o : JsObj} {k v : String}
    (hn : (keysObj o).Nodup) (h : (k, v) ∈ o) : lookupObj o k = some v := by
  induction o with
  | nil => simp at h
  | cons e es ih =>
    simp only [keysObj, List.map_cons, List.nodup_cons] at hn
    rcases List.mem_cons.mp h with h1 | h2
    · subst h1; simp [lookupObj]
    · have hk : k ∈ keysObj es := List.mem_map_of_mem Prod.fst h2
      have hne : e.1 ≠ k := fun hek => hn.1 (hek ▸ hk)
      simp only [lookupObj, hne, if_neg, not_false_iff]
      exact ih hn.2 h2

theorem lookupObj_eq_none_of_not_hasKey {o : JsObj} {k : String}
    (h : hasKeyObj o k = false) : lookupObj o k = none := by
  have h2 : (lookupObj o k).isSome = false := by rw [← hasKeyObj_eq_isSome, h]
  cases hl : lookupObj o k with
  | none => rfl
  | some v => rw [hl] at h2; simp at h2

theorem lookupObj_map_override (b rest : JsObj) :
    ∀ (a : JsObj) (k : String),
      lookupObj (a.map (fun e => (e.1, (lookupObj b e.1).getD e.2)) ++ rest) k =
        if hasKeyObj a k then (lookupObj b k).or (lookupObj a k) else lookupObj rest k := by
  intro a
  induction a with
  | nil => intro k; simp [hasKeyObj, lookupObj]
  | cons e a2 ih =>
    intro k
    by_cases he : e.1 = k
    · subst he
      simp only [List.map_cons, List.cons_append, lookupObj, if_pos rfl, hasKeyObj,
        List.any_cons, decide_eq_true_eq, if_pos, Bool.true_or, eq_self_iff_true]
      cases hb : lookupObj b e.1 <;> simp [Option.or, hb]
    · simp only [List.map_cons, List.cons_append, lookupObj, he, if_neg, not_false_iff,
        hasKeyObj, List.any_cons, decide_eq_true_eq, Bool.false_or]
      exact ih k

theorem lookupObj_filter_keep {a : JsObj} {k : String} (h : hasKeyObj a k = false) :
    ∀ (b : JsObj), lookupObj (b.filter (fun e => ! hasKeyObj a e.1)) k = lookupObj b k := by
  intro b
  induction b with
  | nil => rfl
  | cons e b2 ih =>
    by_cases he : e.1 = k
    · have : hasKeyObj a e.1 = false := he ▸ h
      simp [List.filter_cons, this, lookupObj, he, h]
    · by_cases hk : hasKeyObj a e.1
      · simp [List.filter_cons, hk, lookupObj, he, ih]
      · simp only [Bool.not_eq_true] at hk
        simp [List.filter_cons, hk, lookupObj, he, ih]

theorem lookupObj_spread (a b : JsObj) (k : String) :
    lookupObj (spread a b) k = (lookupObj b k).or (lookupObj a k) := by
  unfold spread
  rw [lookupObj_map_override]
  by_cases h : hasKeyObj a k
  · simp [h]
  · simp only [Bool.not_eq_true] at h
    rw [if_neg (by simp [h]), lookupObj_filter_keep h, lookupObj_eq_none_of_not_hasKey h,
      Option.or_none]

theorem hasChanges_eq_false_decomp (a b : JsObj) :
    hasChanges a b = false ↔
      (keysObj a).length = (keysObj b).length ∧
      (∀ e ∈ a, lookupObj b e.1 = some e.2) ∧
      (∀ e ∈ b, hasKeyObj a e.1 = true) := by
  unfold hasChanges
  split_ifs with h1 h2
  · constructor
    · intro hf; exact absurd hf (by simp)
    · rintro ⟨hlen, -, -⟩; exact absurd hlen h1
  · constructor
    · intro hf; exact absurd hf (by simp)
    · rintro ⟨-, hall, -⟩
      simp only [List.any_eq_true, decide_eq_true_eq] at h2
      obtain ⟨e, he, hne⟩ := h2
      exact absurd (hall e he) hne
  · simp only [not_not, ne_eq] at h1 h2
    constructor
    · intro hf
      refine ⟨h1, ?_, ?_⟩
      · intro e he
        by_contra hne
        exact h2 (List.any_eq_true.mpr ⟨e, he, by simpa using hne⟩)
      · intro e he
        simp only [List.any_eq_false, Bool.not_eq_true] at hf
        have := hf e he
        simpa using this
    · rintro ⟨-, -, hall⟩
      simp only [List.any_eq_false, Bool.not_eq_true]
      intro e he
      simp [hall e he]

theorem hasChanges_eq_false_iff {a b : JsObj}
    (ha : (keysObj a).Nodup) (hb : (keysObj b).Nodup) :
    hasChanges a b = false ↔ ∀ k, lookupObj a k = lookupObj b k := by
  rw [hasChanges_eq_false_decomp]
  constructor
  · rintro ⟨-, hval, hkey⟩ k
    cases hk : lookupObj a k with
    | some v =>
      have hmem := mem_of_lookupObj_eq_some hk
      exact (hval (k, v) hmem).symm
    | none =>
      cases hk2 : lookupObj b k with
      | none => rfl
      | some w =>
        have hmem := mem_of_lookupObj_eq_some hk2
        have := hkey (k, w) hmem
        rw [hasKeyObj_eq_isSome, hk] at this
        simp at this
  · intro heq
    have hmemkeys : ∀ k, k ∈ keysObj a ↔ k ∈ keysObj b := by
      intro k
      rw [mem_keysObj, mem_keysObj, hasKeyObj_eq_isSome, hasKeyObj_eq_isSome, heq k]
    refine ⟨((List.perm_ext_iff_of_nodup ha hb).mpr hmemkeys).length_eq, ?_, ?_⟩
    · intro e he
      rw [← heq e.1]
      exact lookupObj_of_mem_nodup ha he
    · intro e he
      rw [hasKeyObj_eq_isSome, heq e.1, ← hasKeyObj_eq_isSome]
      exact mem_keysObj.mp (List.mem_map_of_mem Prod.fst he)

theorem hasChanges_eq_true_iff {a b : JsObj}
    (ha : (keysObj a).Nodup) (hb : (keysObj b).Nodup) :
    hasChanges a b = true ↔ ∃ k, lookupObj a k ≠ lookupObj b k := by
  rw [← Bool.not_eq_false, not_iff_comm, not_exists]
  push_neg
  exact (hasChanges_eq_false_iff ha hb).symm

/-! ### Claim theorems -/

/-- C3: first observation always syncs — with no prior stored snapshot the
Change Detector's verdict is shouldSync = true with headerChangePercentage
= 100, whatever the new data holds. -/
theorem firstObservationAlwaysSyncs (newData : RequestData) :
    compareAndDetectChanges newData none =
      { shouldSync := true, cookiesChanged := true, headersChanged := true
        headerChangePercentage := 100 } := rfl

/-- C4 counterexample: merging A then B then C (last writer wins per key)
does not agree per key with merging A with the batch B∪C in which B wins
ties — at A empty, B = [k↦b], C = [k↦c] the chained merge holds c while
the claimed batch holds b. -/
theorem mergeBatchingTieCounterexample :
    lookupObj (mergeRequestData
        (some (mergeRequestData (some ⟨[], []⟩) ⟨[("k", "b")], []⟩))
        ⟨[("k", "c")], []⟩).cookies "k" = some "c" ∧
    lookupObj (mergeRequestData (some (⟨[], []⟩ : RequestData))
        ⟨specLeftBiasedUnion [("k", "b")] [("k", "c")],
         specLeftBiasedUnion [] []⟩).cookies "k" = some "b" ∧
    lookupObj (mergeRequestData
        (some (mergeRequestData (some ⟨[], []⟩) ⟨[("k", "b")], []⟩))
        ⟨[("k", "c")], []⟩).cookies "k" ≠
      lookupObj (mergeRequestData (some (⟨[], []⟩ : RequestData))
        ⟨specLeftBiasedUnion [("k", "b")] [("k", "c")],
         specLeftBiasedUnion [] []⟩).cookies "k" := by
  refine ⟨rfl, rfl, by decide⟩

/-- C4 amended: merge is associative per key with the LATER batch winning
ties — for all snapshots A, B, C, merging A then B then C agrees per key
(for both cookies and headers) with merging A with the single batch
merge(B, C), i.e. last-writer-wins per key regardless of batching; and
with no prior snapshot the merge result equals the new data. -/
theorem mergeAssociativePerKey (A B C : RequestData) :
    (∀ k, lookupObj (mergeRequestData (some (mergeRequestData (some A) B)) C).cookies k =
        lookupObj (mergeRequestData (some A) (mergeRequestData (some B) C)).cookies k) ∧
    (∀ k, lookupObj (mergeRequestData (some (mergeRequestData (some A) B)) C).headers k =
        lookupObj (mergeRequestData (some A) (mergeRequestData (some B) C)).headers k) ∧
    (∀ newData : RequestData, mergeRequestData none newData = newData) := by
  refine ⟨fun k => ?_, fun k => ?_, fun newData => rfl⟩ <;>
    simp only [mergeRequestData, lookupObj_spread, Option.or_assoc]

/-- C5 counterexample: after stripping the leading dot the two domains
are equal, yet matchesDomain is false — raw equality is tested before any
stripping, so stripping a leading dot from the configured domain changes
the result. -/
theorem matchesDomainStripCounterexample :
    dropLeadingDot "example.com" = dropLeadingDot ".example.com" ∧
    matchesDomain "example.com" ".example.com" = false ∧
    matchesDomain "example.com" "example.com" = true := by
  refine ⟨by decide, by decide, by decide⟩

/-- C5 amended: for non-empty inputs matchesDomain is true exactly when
the two domains are equal AS GIVEN (no stripping before the equality
test), or the request host ends with "." plus the dot-stripped configured
domain, or the dot-stripped configured domain ends with "." plus the
dot-stripped request host; the three concrete examples of the claim hold. -/
theorem matchesDomainCharacterization :
    (∀ requestDomain configDomain : String, requestDomain ≠ "" → configDomain ≠ "" →
      (matchesDomain requestDomain configDomain = true ↔
        requestDomain = configDomain ∨
        jsEndsWith requestDomain ("." ++ dropLeadingDot configDomain) = true ∨
        jsEndsWith (dropLeadingDot configDomain) ("." ++ dropLeadingDot requestDomain) = true)) ∧
    matchesDomain "www.example.com" "example.com" = true ∧
    matchesDomain "example.com" "www.example.com" = true ∧
    matchesDomain "notexample.com" "example.com" = false := by
  refine ⟨fun r c hr hc => ?_, by decide, by decide, by decide⟩
  unfold matchesDomain
  rw [if_neg (by simp [hr, hc])]
  by_cases h1 : r = c
  · simp [h1]
  · rw [if_neg h1]
    by_cases h2 : jsEndsWith r ("." ++ dropLeadingDot c) = true
    · simp [h1, h2]
    · simp only [Bool.not_eq_true] at h2
      simp [h1, h2]

/-- C6: matchesApiPath is false on an empty pattern list and otherwise
true exactly when some pattern matches the whole path, each pattern read
literally except `*`, which matches zero or more arbitrary characters;
the wildcard examples of the claim hold. -/
theorem matchesApiPathSpec :
    (∀ p : String, matchesApiPath p [] = false) ∧
    (∀ (p : String) (pats : List String),
      matchesApiPath p pats = true ↔ ∃ pat ∈ pats, globMatch pat.data p.data = true) ∧
    (∀ cs : List Char, globMatch [] cs = true ↔ cs = []) ∧
    (∀ ps cs : List Char,
      globMatch ('*' :: ps) cs = true ↔ ∃ n, globMatch ps (cs.drop n) = true) ∧
    (∀ (ch : Char) (ps cs : List Char), ch ≠ '*' →
      (globMatch (ch :: ps) cs = true ↔ ∃ cs2, cs = ch :: cs2 ∧ globMatch ps cs2 = true)) ∧
    matchesApiPath "/api/v3/account" ["/api/v3/*"] = true ∧
    matchesApiPath "/api/v3/" ["/api/v3/*"] = true ∧
    matchesApiPath "/api/v2/account" ["/api/v3/*"] = false := by
  refine ⟨fun p => rfl, fun p pats => ?_, fun cs => ?_, fun ps cs => ?_,
    fun ch ps cs hch => ?_, by decide, by decide, by decide⟩
  · cases pats with
    | nil => simp [matchesApiPath]
    | cons q qs => simp [matchesApiPath, List.any_eq_true]
  · simp [globMatch, List.isEmpty_iff]
  · have h0 : globMatch ('*' :: ps) cs = cs.tails.any (fun suf => globMatch ps suf) := by
      rw [globMatch.eq_def]
      simp
    rw [h0, List.any_eq_true]
    constructor
    · rintro ⟨t, ht, hm⟩
      obtain ⟨s, hs⟩ := (List.mem_tails t cs).mp ht
      refine ⟨s.length, ?_⟩
      rw [← hs, List.drop_left]
      exact hm
    · rintro ⟨n, hm⟩
      exact ⟨cs.drop n, (List.mem_tails _ cs).mpr (List.drop_suffix n cs), hm⟩
  · cases cs with
    | nil =>
      have h0 : globMatch (ch :: ps) [] = false := by rw [globMatch, if_neg hch]
      simp [h0]
    | cons c cs2 =>
      have h0 : globMatch (ch :: ps) (c :: cs2) = (decide (ch = c) && globMatch ps cs2) := by
        rw [globMatch, if_neg hch]
      rw [h0, Bool.and_eq_true, decide_eq_true_eq]
      constructor
      · rintro ⟨rfl, hm⟩
        exact ⟨cs2, rfl, hm⟩
      · rintro ⟨cs3, heq, hm⟩
        cases heq
        exact ⟨rfl, hm⟩

theorem hasKeyObj_filter_ne (o : JsObj) (k : String) :
    hasKeyObj (o.filter (fun e => e.1 ≠ k)) k = false := by
  induction o with
  | nil => rfl
  | cons e es ih =>
    simp only [ne_eq, decide_not] at ih ⊢
    by_cases he : e.1 = k
    · simpa [List.filter_cons, he] using ih
    · simpa [List.filter_cons, he, hasKeyObj, List.any_cons] using ih

/-- C7: the extractor's returned header map never holds the `cookie` key,
and its returned cookie map is the parse of the Cookie header when that
parse is non-empty, otherwise the full result of the cookie-lookup
collaborator for the request's URL. -/
theorem extractRequestDataPost
    (chromeCookiesGetAll : String → Except String (List (String × String)))
    (url : String) (requestHeaders : List (String × String)) :
    hasKeyObj (extractRequestData chromeCookiesGetAll url requestHeaders).headers "cookie"
        = false ∧
    (extractRequestData chromeCookiesGetAll url requestHeaders).cookies =
      (if parseCookieHeader ((lookupObj (extractHeaders requestHeaders) "cookie").getD "") = []
       then getCookiesForUrl chromeCookiesGetAll url
       else parseCookieHeader ((lookupObj (extractHeaders requestHeaders) "cookie").getD "")) := by
  constructor
  · exact hasKeyObj_filter_ne _ "cookie"
  · simp only [extractRequestData, keysObj, List.length_map, List.length_eq_zero]

/-- C8: when the cookie-lookup collaborator throws, getCookiesForUrl
returns the empty cookie map — the error is caught at the call site and
never propagated, since the embedding is a total function. -/
theorem cookieLookupFailureYieldsEmpty
    (chromeCookiesGetAll : String → Except String (List (String × String)))
    (url errMsg : String) (h : chromeCookiesGetAll url = Except.error errMsg) :
    getCookiesForUrl chromeCookiesGetAll url = [] := by
  simp [getCookiesForUrl, h]

/-- C8 witness: a concrete throwing collaborator yields the empty map. -/
theorem cookieLookupFailureYieldsEmptyWitness :
    getCookiesForUrl (fun _ => Except.error "boom") "https://example.com/x" = [] :=
  cookieLookupFailureYieldsEmpty (fun _ => Except.error "boom") "https://example.com/x" "boom" rfl

/-- C1: cookie-change dominance — whenever the merged cookie mapping
differs from the prior snapshot's cookie mapping (by key set or value),
the verdict has shouldSync = true unconditionally, with the header-change
percentage reported as 100 when the header mappings also differ and 0
otherwise. -/
theorem cookieChangeDominates (newData stored : RequestData)
    (hnc : (keysObj newData.cookies).Nodup) (hsc : (keysObj stored.cookies).Nodup)
    (hnh : (keysObj newData.headers).Nodup) (hsh : (keysObj stored.headers).Nodup)
    (hdiff : ∃ k, lookupObj newData.cookies k ≠ lookupObj stored.cookies k) :
    (compareAndDetectChanges newData (some stored)).shouldSync = true ∧
    (compareAndDetectChanges newData (some stored)).cookiesChanged = true ∧
    ((∃ k, lookupObj newData.headers k ≠ lookupObj stored.headers k) →
      (compareAndDetectChanges newData (some stored)).headerChangePercentage = 100) ∧
    ((∀ k, lookupObj newData.headers k = lookupObj stored.headers k) →
      (compareAndDetectChanges newData (some stored)).headerChangePercentage = 0) := by
  have hck : hasChanges newData.cookies stored.cookies = true :=
    (hasChanges_eq_true_iff hnc hsc).mpr hdiff
  have hverdict : compareAndDetectChanges newData (some stored) =
      { shouldSync := true, cookiesChanged := true
        headersChanged := hasChanges newData.headers stored.headers
        headerChangePercentage :=
          if hasChanges newData.headers stored.headers then 100 else 0 } := by
    simp [compareAndDetectChanges, hck]
  rw [hverdict]
  refine ⟨rfl, rfl, fun hhd => ?_, fun hhe => ?_⟩
  · rw [if_pos ((hasChanges_eq_true_iff hnh hsh).mpr hhd)]
  · rw [if_neg (by rw [(hasChanges_eq_false_iff hnh hsh).mpr hhe]; exact Bool.false_ne_true)]

/-- C1 witness: a rotated session cookie with identical headers syncs
with percentage 0. -/
theorem cookieChangeDominatesWitness :
    (compareAndDetectChanges ⟨[("s", "y")], []⟩ (some ⟨[("s", "x")], []⟩)).shouldSync = true ∧
    (compareAndDetectChanges ⟨[("s", "y")], []⟩
        (some ⟨[("s", "x")], []⟩)).headerChangePercentage = 0 :=
  ⟨(cookieChangeDominates ⟨[("s", "y")], []⟩ ⟨[("s", "x")], []⟩ (by decide) (by decide)
      (by decide) (by decide) ⟨"s", by decide⟩).1,
   (cookieChangeDominates ⟨[("s", "y")], []⟩ ⟨[("s", "x")], []⟩ (by decide) (by decide)
      (by decide) (by decide) ⟨"s", by decide⟩).2.2.2 (fun k => rfl)⟩

theorem keysObj_length_eq_zero {o : JsObj} : (keysObj o).length = 0 ↔ o = [] := by
  simp [keysObj, List.length_eq_zero]

/-- C2: header-change threshold — with cookies equal and headers
differing, the reported percentage is the calculated one: 100 when the
prior headers are empty or the common key set is empty, else the share of
common header names whose values differ, times 100, rounded to 2 decimal
places; shouldSync holds exactly when that percentage is at least 20; one
differing key of 5 common keys (20%) syncs, one of 6 (16.67%) does not,
and none of 5 (0%) does not. -/
theorem headerChangeThreshold (newData stored : RequestData)
    (hnc : (keysObj newData.cookies).Nodup) (hsc : (keysObj stored.cookies).Nodup)
    (hnh : (keysObj newData.headers).Nodup) (hsh : (keysObj stored.headers).Nodup)
    (hck : ∀ k, lookupObj newData.cookies k = lookupObj stored.cookies k)
    (hhd : ∃ k, lookupObj newData.headers k ≠ lookupObj stored.headers k) :
    (compareAndDetectChanges newData (some stored)).headerChangePercentage =
      (calculateHeaderChangePercentage newData.headers stored.headers).percentage ∧
    (stored.headers = [] →
      (calculateHeaderChangePercentage newData.headers stored.headers).percentage = 100) ∧
    (commonHeaderKeys newData.headers stored.headers = [] →
      (calculateHeaderChangePercentage newData.headers stored.headers).percentage = 100) ∧
    (stored.headers ≠ [] → commonHeaderKeys newData.headers stored.headers ≠ [] →
      (calculateHeaderChangePercentage newData.headers stored.headers).percentage =
        jsRound2
          ((((commonHeaderKeys newData.headers stored.headers).countP
              (fun k => lookupObj newData.headers k ≠ lookupObj stored.headers k) : ℚ)) /
            ((commonHeaderKeys newData.headers stored.headers).length : ℚ) * 100)) ∧
    ((compareAndDetectChanges newData (some stored)).shouldSync = true ↔
      20 ≤ (compareAndDetectChanges newData (some stored)).headerChangePercentage) ∧
    (compareAndDetectChanges
        ⟨[], [("a","9"),("b","2"),("c","3"),("d","4"),("e","5")]⟩
        (some ⟨[], [("a","1"),("b","2"),("c","3"),("d","4"),("e","5")]⟩)).shouldSync = true ∧
    (compareAndDetectChanges
        ⟨[], [("a","9"),("b","2"),("c","3"),("d","4"),("e","5")]⟩
        (some ⟨[], [("a","1"),("b","2"),("c","3"),("d","4"),("e","5")]⟩)).headerChangePercentage
      = 20 ∧
    (compareAndDetectChanges
        ⟨[], [("a","9"),("b","2"),("c","3"),("d","4"),("e","5"),("f","6")]⟩
        (some ⟨[], [("a","1"),("b","2"),("c","3"),("d","4"),("e","5"),("f","6")]⟩)).shouldSync
      = false ∧
    (compareAndDetectChanges
        ⟨[], [("a","9"),("b","2"),("c","3"),("d","4"),("e","5"),("f","6")]⟩
        (some ⟨[], [("a","1"),("b","2"),("c","3"),("d","4"),("e","5"),("f","6")]⟩)).headerChangePercentage
      = 1667/100 ∧
    (compareAndDetectChanges
        ⟨[], [("a","1"),("b","2"),("c","3"),("d","4"),("e","5"),("f","6")]⟩
        (some ⟨[], [("a","1"),("b","2"),("c","3"),("d","4"),("e","5")]⟩)).shouldSync = false ∧
    (compareAndDetectChanges
        ⟨[], [("a","1"),("b","2"),("c","3"),("d","4"),("e","5"),("f","6")]⟩
        (some ⟨[], [("a","1"),("b","2"),("c","3"),("d","4"),("e","5")]⟩)).headerChangePercentage
      = 0 := by
  have hcke : hasChanges newData.cookies stored.cookies = false :=
    (hasChanges_eq_false_iff hnc hsc).mpr hck
  have hhde : hasChanges newData.headers stored.headers = true :=
    (hasChanges_eq_true_iff hnh hsh).mpr hhd
  have hverdict : compareAndDetectChanges newData (some stored) =
      { shouldSync := decide (MIN_HEADER_CHANGE_PERCENTAGE ≤
          (calculateHeaderChangePercentage newData.headers stored.headers).percentage)
        cookiesChanged := false, headersChanged := true
        headerChangePercentage :=
          (calculateHeaderChangePercentage newData.headers stored.headers).percentage } := by
    simp [compareAndDetectChanges, hcke, hhde]
  refine ⟨by rw [hverdict], fun hemp => ?_, fun hcom => ?_, fun hsne hcne => ?_, ?_, ?_, ?_,
    ?_, ?_, ?_, ?_⟩
  · rw [hemp]
    simp [calculateHeaderChangePercentage, keysObj]
  · by_cases hemp : (keysObj stored.headers).length = 0
    · simp [calculateHeaderChangePercentage, hemp]
    · simp [calculateHeaderChangePercentage, hemp, hcom]
  · have h1 : ¬ (keysObj stored.headers).length = 0 := by
      rw [keysObj_length_eq_zero]; exact hsne
    have h2 : ¬ (commonHeaderKeys newData.headers stored.headers).length = 0 := by
      rw [List.length_eq_zero]; exact hcne
    simp [calculateHeaderChangePercentage, h1, h2]
  · rw [hverdict]
    simp [MIN_HEADER_CHANGE_PERCENTAGE]
  all_goals
    simp +decide only [compareAndDetectChanges, hasChanges, calculateHeaderChangePercentage,
      commonHeaderKeys, keysObj, hasKeyObj, lookupObj, jsRound2, jsRound,
      MIN_HEADER_CHANGE_PERCENTAGE, List.countP, List.countP.go, List.map, List.filter,
      List.length, List.any]
  all_goals norm_num

/-- C2 witness: the 1-of-5 boundary instance satisfies the hypotheses. -/
theorem headerChangeThresholdWitness :
    (compareAndDetectChanges
        ⟨[], [("a","9"),("b","2"),("c","3"),("d","4"),("e","5")]⟩
        (some ⟨[], [("a","1"),("b","2"),("c","3"),("d","4"),("e","5")]⟩)).headerChangePercentage =
      (calculateHeaderChangePercentage
        [("a","9"),("b","2"),("c","3"),("d","4"),("e","5")]
        [("a","1"),("b","2"),("c","3"),("d","4"),("e","5")]).percentage :=
  (headerChangeThreshold
    ⟨[], [("a","9"),("b","2"),("c","3"),("d","4"),("e","5")]⟩
    ⟨[], [("a","1"),("b","2"),("c","3"),("d","4"),("e","5")]⟩
    (by decide) (by decide) (by decide) (by decide) (fun k => rfl) ⟨"a", by decide⟩).1

theorem runEvents_cons (w : TimerWorld) (e : SchedulerEvent) (es : List SchedulerEvent) :
    runEvents w (e :: es) = runEvents (stepEvent w e) es := rfl

theorem runEvents_append (w : TimerWorld) (es1 es2 : List SchedulerEvent) :
    runEvents w (es1 ++ es2) = runEvents (runEvents w es1) es2 :=
  List.foldl_append _ _ _ _

theorem triggerSync_armed {w : TimerWorld}
    (h : w.timers = [] ∨ ∃ r, ArmedWorld w r) :
    ArmedWorld (triggerSync w) SYNC_DEBOUNCE_UNITS ∧ (triggerSync w).fires = w.fires := by
  refine ⟨⟨w.nextId, ?_, rfl⟩, rfl⟩
  unfold triggerSync
  rcases h with h | ⟨r, i, hti, hh⟩
  · cases hdh : w.debounceHandle <;> simp [h, hdh]
  · simp [hti, hh, List.filter]

theorem tickWorld_armed_ge {w : TimerWorld} {r : Nat} (h : ArmedWorld w r) (hr : 2 ≤ r) :
    ArmedWorld (tickWorld w) (r - 1) ∧ (tickWorld w).fires = w.fires := by
  obtain ⟨i, hti, hh⟩ := h
  have hne : ¬ (r - 1 = 0) := by omega
  refine ⟨⟨i, ?_, ?_⟩, ?_⟩ <;> simp [tickWorld, hti, hh, hne]

theorem tickWorld_armed_one {w : TimerWorld} (h : ArmedWorld w 1) :
    (tickWorld w).timers = [] ∧ (tickWorld w).fires = w.fires + 1 := by
  obtain ⟨i, hti, hh⟩ := h
  refine ⟨?_, ?_⟩ <;> simp [tickWorld, hti]

theorem ticks_armed (g : Nat) : ∀ {w : TimerWorld} {r : Nat}, ArmedWorld w r → g < r →
    ArmedWorld (runEvents w (List.replicate g SchedulerEvent.tick)) (r - g) ∧
    (runEvents w (List.replicate g SchedulerEvent.tick)).fires = w.fires := by
  induction g with
  | zero => intro w r h _; exact ⟨h, rfl⟩
  | succ n ih =>
    intro w r h hlt
    have hr2 : 2 ≤ r := by omega
    obtain ⟨h1, hf1⟩ := tickWorld_armed_ge h hr2
    obtain ⟨h2, hf2⟩ := ih h1 (by omega)
    rw [List.replicate_succ, runEvents_cons]
    have hstep : stepEvent w SchedulerEvent.tick = tickWorld w := rfl
    rw [hstep]
    have harith : r - 1 - n = r - (n + 1) := by omega
    rw [harith] at h2
    exact ⟨h2, by rw [hf2, hf1]⟩

theorem burst_gaps_armed : ∀ (gaps : List Nat), (∀ g ∈ gaps, g < SYNC_DEBOUNCE_UNITS) →
    ∀ {w : TimerWorld}, ArmedWorld w SYNC_DEBOUNCE_UNITS →
    ArmedWorld (runEvents w (gaps.flatMap
        (fun g => List.replicate g SchedulerEvent.tick ++ [SchedulerEvent.signal])))
      SYNC_DEBOUNCE_UNITS ∧
    (runEvents w (gaps.flatMap
        (fun g => List.replicate g SchedulerEvent.tick ++ [SchedulerEvent.signal]))).fires
      = w.fires := by
  intro gaps
  induction gaps with
  | nil => intro _ w h; exact ⟨h, rfl⟩
  | cons g gs ih =>
    intro hg w h
    have hgl : g < SYNC_DEBOUNCE_UNITS := hg g (List.mem_cons_self g gs)
    obtain ⟨h1, hf1⟩ := ticks_armed g h hgl
    obtain ⟨h2, hf2⟩ := triggerSync_armed (Or.inr ⟨SYNC_DEBOUNCE_UNITS - g, h1⟩)
    obtain ⟨h3, hf3⟩ := ih (fun x hx => hg x (List.mem_cons_of_mem g hx)) h2
    rw [List.flatMap_cons, List.append_assoc, runEvents_append]
    rw [show ([SchedulerEvent.signal] ++ gs.flatMap
        (fun g => List.replicate g SchedulerEvent.tick ++ [SchedulerEvent.signal])) =
      SchedulerEvent.signal :: gs.flatMap
        (fun g => List.replicate g SchedulerEvent.tick ++ [SchedulerEvent.signal]) from rfl]
    rw [runEvents_cons]
    have hstep : stepEvent (runEvents w (List.replicate g SchedulerEvent.tick))
        SchedulerEvent.signal = triggerSync (runEvents w (List.replicate g SchedulerEvent.tick)) :=
      rfl
    rw [hstep]
    exact ⟨h3, by rw [hf3, hf2, hf1]⟩

theorem triggerSync_inv {w : TimerWorld} (h : TimerInv w) : TimerInv (triggerSync w) := by
  obtain ⟨hlen, hh⟩ := h
  cases ht : w.timers with
  | nil =>
    cases hdh : w.debounceHandle <;>
      simp [TimerInv, triggerSync, ht, hdh]
  | cons t rest =>
    cases rest with
    | nil =>
      have hdh := hh t (by rw [ht]; exact List.mem_cons_self _ _)
      simp [TimerInv, triggerSync, ht, hdh, List.filter]
    | cons t2 rest2 =>
      exfalso
      rw [ht] at hlen
      simp at hlen

theorem tickWorld_inv {w : TimerWorld} (h : TimerInv w) : TimerInv (tickWorld w) := by
  obtain ⟨hlen, hh⟩ := h
  constructor
  · calc (tickWorld w).timers.length
        ≤ (w.timers.map (fun t => (t.1, t.2 - 1))).length := List.length_filter_le _ _
      _ = w.timers.length := List.length_map _ _
      _ ≤ 1 := hlen
  · intro t htm
    have htm2 : t ∈ w.timers.map (fun t => (t.1, t.2 - 1)) := List.mem_of_mem_filter htm
    obtain ⟨orig, horig, rfl⟩ := List.mem_map.mp htm2
    exact hh orig horig

theorem runEvents_inv (es : List SchedulerEvent) :
    ∀ {w : TimerWorld}, TimerInv w → TimerInv (runEvents w es) := by
  induction es with
  | nil => intro w h; exact h
  | cons e rest ih =>
    intro w h
    rw [runEvents_cons]
    apply ih
    cases e
    · exact triggerSync_inv h
    · exact tickWorld_inv h

/-- C9: debounce coalescing — starting idle, a burst of N >= 1 signals in
which every gap between consecutive signals is shorter than the quiet
window (2 time units), followed by a full quiet window, fires the
downstream sync callback exactly once and leaves nothing pending; and
after any event sequence whatsoever at most one pending scheduled
invocation exists (each signal cancels the pending one and reschedules). -/
theorem debounceCoalescing (gaps : List Nat)
    (hg : ∀ g ∈ gaps, g < SYNC_DEBOUNCE_UNITS) :
    (runEvents idleWorld (burstEvents gaps ++
        List.replicate SYNC_DEBOUNCE_UNITS SchedulerEvent.tick)).fires = 1 ∧
    (runEvents idleWorld (burstEvents gaps ++
        List.replicate SYNC_DEBOUNCE_UNITS SchedulerEvent.tick)).timers = [] ∧
    (∀ es : List SchedulerEvent, (runEvents idleWorld es).timers.length ≤ 1) := by
  obtain ⟨ha0, hf0⟩ := triggerSync_armed (w := idleWorld) (Or.inl rfl)
  obtain ⟨ha1, hf1⟩ := burst_gaps_armed gaps hg ha0
  obtain ⟨ha2, hf2⟩ := tickWorld_armed_ge ha1 (by decide)
  have ha2b : ArmedWorld (tickWorld (runEvents (triggerSync idleWorld)
      (gaps.flatMap (fun g => List.replicate g SchedulerEvent.tick ++ [SchedulerEvent.signal])))) 1 :=
    ha2
  obtain ⟨ht3, hf3⟩ := tickWorld_armed_one ha2b
  rw [runEvents_append]
  have hb : runEvents idleWorld (burstEvents gaps) =
      runEvents (triggerSync idleWorld)
        (gaps.flatMap (fun g => List.replicate g SchedulerEvent.tick ++ [SchedulerEvent.signal])) :=
    rfl
  rw [hb]
  have hrep : List.replicate SYNC_DEBOUNCE_UNITS SchedulerEvent.tick =
      [SchedulerEvent.tick, SchedulerEvent.tick] := rfl
  rw [hrep]
  have hrun2 : ∀ v : TimerWorld, runEvents v [SchedulerEvent.tick, SchedulerEvent.tick] =
      tickWorld (tickWorld v) := fun v => rfl
  rw [hrun2]
  refine ⟨?_, ht3, fun es => (runEvents_inv es ⟨by simp [idleWorld], by simp [idleWorld]⟩).1⟩
  rw [hf3, hf2, hf1, hf0]
  rfl

/-- C9 witness: three signals with gaps 0 and 1 fire exactly once. -/
theorem debounceCoalescingWitness :
    (runEvents idleWorld (burstEvents [0, 1] ++
        List.replicate SYNC_DEBOUNCE_UNITS SchedulerEvent.tick)).fires = 1 :=
  (debounceCoalescing [0, 1] (by decide)).1

theorem spread_eq_self_of_submap {a b : JsObj}
    (ha : (keysObj a).Nodup) (hb : (keysObj b).Nodup)
    (hsub : ∀ k v, lookupObj b k = some v → lookupObj a k = some v) :
    spread a b = a := by
  unfold spread
  have h1 : a.map (fun e => (e.1, (lookupObj b e.1).getD e.2)) = a := by
    have hmap : ∀ e ∈ a, (e.1, (lookupObj b e.1).getD e.2) = e := by
      intro e he
      cases hl : lookupObj b e.1 with
      | none => simp
      | some v =>
        have hv : lookupObj a e.1 = some v := hsub _ _ hl
        have he2 : lookupObj a e.1 = some e.2 := lookupObj_of_mem_nodup ha he
        rw [he2] at hv
        cases hv
        simp
    calc a.map (fun e => (e.1, (lookupObj b e.1).getD e.2)) = a.map id :=
          List.map_congr_left hmap
      _ = a := List.map_id a
  have h2 : b.filter (fun e => ! hasKeyObj a e.1) = [] := by
    rw [List.filter_eq_nil_iff]
    intro e he
    have hl : lookupObj b e.1 = some e.2 := lookupObj_of_mem_nodup hb he
    have hv : lookupObj a e.1 = some e.2 := hsub _ _ hl
    have hk : hasKeyObj a e.1 = true := by rw [hasKeyObj_eq_isSome, hv]; rfl
    simp [hk]
  rw [h1, h2, List.append_nil]

theorem detectNoChange_of_submap (stored newData : RequestData)
    (hsc : (keysObj stored.cookies).Nodup) (hsh : (keysObj stored.headers).Nodup)
    (hnc : (keysObj newData.cookies).Nodup) (hnh : (keysObj newData.headers).Nodup)
    (hsubc : ∀ k v, lookupObj newData.cookies k = some v → lookupObj stored.cookies k = some v)
    (hsubh : ∀ k v, lookupObj newData.headers k = some v → lookupObj stored.headers k = some v) :
    compareAndDetectChanges (mergeRequestData (some stored) newData) (some stored) =
      { shouldSync := false, cookiesChanged := false, headersChanged := false
        headerChangePercentage := 0 } := by
  have hm : mergeRequestData (some stored) newData = stored := by
    show ({ cookies := spread stored.cookies newData.cookies
            headers := spread stored.headers newData.headers } : RequestData) = stored
    rw [spread_eq_self_of_submap hsc hnc hsubc, spread_eq_self_of_submap hsh hnh hsubh]
  rw [hm]
  have hcc : hasChanges stored.cookies stored.cookies = false :=
    (hasChanges_eq_false_iff hsc hsc).mpr (fun k => rfl)
  have hhh : hasChanges stored.headers stored.headers = false :=
    (hasChanges_eq_false_iff hsh hsh).mpr (fun k => rfl)
  simp [compareAndDetectChanges, hcc, hhh]

/-- C10: key-set monotonicity of the pipeline — the merged data the
detector receives has cookie and header key sets that are supersets of
the stored snapshot's; new data whose entries are all already in the
snapshot (so keys merely stopped appearing) yields the no-change verdict;
and when the prior headers are non-empty the common-key set of the merged
headers against them is non-empty, so the "no common keys = 100%" branch
is unreachable; the committed snapshot is the merged data, so its key
sets never shrink.  A concrete no-change instance is included. -/
theorem pipelineKeyMonotonicity (stored newData : RequestData) :
    (∀ k, hasKeyObj stored.cookies k = true →
      hasKeyObj (mergeRequestData (some stored) newData).cookies k = true) ∧
    (∀ k, hasKeyObj stored.headers k = true →
      hasKeyObj (mergeRequestData (some stored) newData).headers k = true) ∧
    ((keysObj stored.cookies).Nodup → (keysObj stored.headers).Nodup →
     (keysObj newData.cookies).Nodup → (keysObj newData.headers).Nodup →
     (∀ k v, lookupObj newData.cookies k = some v → lookupObj stored.cookies k = some v) →
     (∀ k v, lookupObj newData.headers k = some v → lookupObj stored.headers k = some v) →
      compareAndDetectChanges (mergeRequestData (some stored) newData) (some stored) =
        { shouldSync := false, cookiesChanged := false, headersChanged := false
          headerChangePercentage := 0 }) ∧
    (stored.headers ≠ [] →
      (commonHeaderKeys (mergeRequestData (some stored) newData).headers
          stored.headers).length ≠ 0) ∧
    compareAndDetectChanges
        (mergeRequestData (some ⟨[("s", "x")], [("h", "1")]⟩) ⟨[("s", "x")], []⟩)
        (some ⟨[("s", "x")], [("h", "1")]⟩) =
      { shouldSync := false, cookiesChanged := false, headersChanged := false
        headerChangePercentage := 0 } := by
  have hsup : ∀ (a b : JsObj) (k : String), hasKeyObj a k = true →
      hasKeyObj (spread a b) k = true := by
    intro a b k hk
    rw [hasKeyObj_eq_isSome] at hk ⊢
    rw [lookupObj_spread]
    cases hl : lookupObj b k with
    | none => simpa [Option.or, hl] using hk
    | some v => simp [Option.or, hl]
  refine ⟨fun k hk => hsup _ _ k hk, fun k hk => hsup _ _ k hk,
    detectNoChange_of_submap stored newData, fun hne => ?_,
    detectNoChange_of_submap ⟨[("s", "x")], [("h", "1")]⟩ ⟨[("s", "x")], []⟩
      (by decide) (by decide) (by decide) (by decide)
      (fun k v h => h) (fun k v h => by simp [lookupObj] at h)⟩
  obtain ⟨e, rest, heq⟩ := List.exists_cons_of_ne_nil hne
  have hk : hasKeyObj stored.headers e.1 = true := by
    rw [heq]
    simp [hasKeyObj, List.any_cons]
  have hmem : e.1 ∈ keysObj (mergeRequestData (some stored) newData).headers := by
    rw [mem_keysObj]
    exact hsup _ _ e.1 hk
  have hfmem : e.1 ∈ commonHeaderKeys (mergeRequestData (some stored) newData).headers
      stored.headers := by
    unfold commonHeaderKeys
    exact List.mem_filter.mpr ⟨hmem, by simp [hk]⟩
  intro hlen
  rw [List.length_eq_zero] at hlen
  rw [hlen] at hfmem
  simp at hfmem
